import Mathlib

/-!
Shallow embedding of `src/sat_sudoku.py` (a SAT encoder/decoder for 9×9 Sudoku)
together with theorems settling the specification claims about it.

Python integers are modelled as `Int`; Python lists as `List`; `range(a, b)` as
`pyRange a b`; Python list indexing and item assignment, which can raise
`IndexError`, are modelled in the `Except String` monad.  The external solver
`pycosat.solve` is modelled as a function parameter producing a `SolverResult`.
-/

namespace SatSudoku

/-- Python `range(a, b)`: the integers `a, a + 1, ..., b - 1` in order. -/
def pyRange (a b : Int) : List Int :=
  (List.range (b - a).toNat).map (fun (k : Nat) => a + (k : Int))

/-- `NUM_CELLS = 81` (module-level constant of sat_sudoku.py). -/
def NUM_CELLS : Int := 81

/-- `SUDOKU_BOARD_BOUNDARIES = [1, 4, 7]` (module-level constant). -/
def SUDOKU_BOARD_BOUNDARIES : List Int := [1, 4, 7]

/-- `DIGITS = 9` (module-level constant). -/
def DIGITS : Int := 9

/-- `NUM_VARIABLES = 729` (module-level constant). -/
def NUM_VARIABLES : Int := 729

/-- `get_cell_value(row, column, digit)`: the boolean-variable id of the triple,
computed as `NUM_CELLS * (row - 1) + DIGITS * (column - 1) + digit`. -/
def get_cell_value (row column digit : Int) : Int :=
  NUM_CELLS * (row - 1) + DIGITS * (column - 1) + digit

/-- `get_base_clauses()`: for every cell, one clause listing the nine digit
literals of that cell. -/
def get_base_clauses : List (List Int) :=
  (pyRange 1 (DIGITS + 1)).flatMap (fun row =>
    (pyRange 1 (DIGITS + 1)).map (fun column =>
      (pyRange 1 (DIGITS + 1)).map (fun digit => get_cell_value row column digit)))

/-- `get_unique_digit_clauses()`: for every cell and ordered pair
`digit < next_digit`, the clause `[-lit(cell,digit), -lit(cell,next_digit)]`. -/
def get_unique_digit_clauses : List (List Int) :=
  (pyRange 1 (DIGITS + 1)).flatMap (fun row =>
    (pyRange 1 (DIGITS + 1)).flatMap (fun column =>
      (pyRange 1 (DIGITS + 1)).flatMap (fun digit =>
        (pyRange (digit + 1) (DIGITS + 1)).map (fun next_digit =>
          [-get_cell_value row column digit, -get_cell_value row column next_digit]))))

/-- The nine clauses produced by the innermost digit loop of
`get_unique_subset_clause` for one ordered pair of cells `a`, `b`. -/
def pair_digit_clauses (a b : Int × Int) : List (List Int) :=
  (pyRange 1 (DIGITS + 1)).map (fun digit =>
    [-get_cell_value a.1 a.2 digit, -get_cell_value b.1 b.2 digit])

/-- `get_unique_subset_clause(board_subset)`: for every pair of enumeration
indices `index < n_index` and every digit, the clause with both negated
literals.  `enumerate` is modelled by `List.enum`. -/
def get_unique_subset_clause (board_subset : List (Int × Int)) : List (List Int) :=
  board_subset.enum.flatMap (fun p =>
    board_subset.enum.flatMap (fun q =>
      if p.1 < q.1 then pair_digit_clauses p.2 q.2 else []))

/-- The body of `get_unique_subset_clause` over an arbitrary enumerated list
(proof-side generalisation used for induction). -/
def subset_clause_core (s : List (Nat × (Int × Int))) : List (List Int) :=
  s.flatMap (fun p =>
    s.flatMap (fun q =>
      if p.1 < q.1 then pair_digit_clauses p.2 q.2 else []))

/-- `get_rows_digits_unique_clauses()`. -/
def get_rows_digits_unique_clauses : List (List Int) :=
  (pyRange 1 (DIGITS + 1)).flatMap (fun row =>
    get_unique_subset_clause ((pyRange 1 (DIGITS + 1)).map (fun column => (row, column))))

/-- `get_column_digits_unique_clause()`. -/
def get_column_digits_unique_clause : List (List Int) :=
  (pyRange 1 (DIGITS + 1)).flatMap (fun row =>
    get_unique_subset_clause ((pyRange 1 (DIGITS + 1)).map (fun column => (column, row))))

/-- The nine 3×3 box subsets enumerated inside `get_3x3_sub_grid_clauses`:
`[(row + k % 3, column + k // 3) for k in range(9)]` for `row` and `column`
ranging over `SUDOKU_BOARD_BOUNDARIES`. -/
def sub_grid_subsets : List (List (Int × Int)) :=
  SUDOKU_BOARD_BOUNDARIES.flatMap (fun row =>
    SUDOKU_BOARD_BOUNDARIES.map (fun column =>
      (List.range 9).map (fun k => (row + (k : Int) % 3, column + (k : Int) / 3))))

/-- `get_3x3_sub_grid_clauses()`. -/
def get_3x3_sub_grid_clauses : List (List Int) :=
  sub_grid_subsets.flatMap get_unique_subset_clause

/-- `get_sudoku_clauses()`: concatenation of the five structural clause
families, in source order. -/
def get_sudoku_clauses : List (List Int) :=
  get_base_clauses ++ get_unique_digit_clauses ++ get_rows_digits_unique_clauses
    ++ get_column_digits_unique_clause ++ get_3x3_sub_grid_clauses

/-- The 81 cells of the board in row-major order (specification-side helper). -/
def allCells : List (Int × Int) :=
  (pyRange 1 (DIGITS + 1)).flatMap (fun row =>
    (pyRange 1 (DIGITS + 1)).map (fun column => (row, column)))

/-- A cell coordinate with both components in `[1, 9]`. -/
def cell_in_range (p : Int × Int) : Prop :=
  1 ≤ p.1 ∧ p.1 ≤ 9 ∧ 1 ≤ p.2 ∧ p.2 ≤ 9

instance (p : Int × Int) : Decidable (cell_in_range p) := by
  unfold cell_in_range; infer_instance

/-- Python list read `l[i]` at a nonnegative index: `IndexError` out of range. -/
def pyGet {α : Type} (l : List α) (i : Nat) : Except String α :=
  match l.get? i with
  | some a => .ok a
  | none => .error "IndexError"

/-- Python list item assignment `l[i] = v` at a nonnegative index:
`IndexError` out of range, otherwise the updated list. -/
def pySet {α : Type} (l : List α) (i : Nat) (v : α) : Except String (List α) :=
  if i < l.length then .ok (l.set i v) else .error "IndexError"

/-- `get_single_clauses(sudoku_grid)`: one unit clause per truthy (nonzero)
grid entry, visiting cells in row-major order; reading
`sudoku_grid[row - 1][column - 1]` can raise `IndexError`. -/
def get_single_clauses (sudoku_grid : List (List Int)) :
    Except String (List (List Int)) := do
  let rows ← (pyRange 1 (DIGITS + 1)).mapM (fun row =>
    (pyRange 1 (DIGITS + 1)).mapM (fun column => do
      let cell_value ← pyGet (← pyGet sudoku_grid (row - 1).toNat) (column - 1).toNat
      pure (if cell_value ≠ 0 then [[get_cell_value row column cell_value]] else [])))
  pure rows.flatten.flatten

/-- Outcome of `pycosat.solve`: either a model (a list of signed literals) or
one of the strings `"UNSAT"` / `"UNKNOWN"`. -/
inductive SolverResult where
  | model (assignment : List Int)
  | unsat
  | unknown
deriving DecidableEq

/-- `set(pycosat.solve(...))` as used by `solve_sudoku`.  The set is only ever
queried for membership of integers.  For a model it holds exactly the model's
integers; for the outcome strings `"UNSAT"`/`"UNKNOWN"` Python builds a set of
single-character strings, in which every integer membership test is false, so
those outcomes are modelled by the empty integer collection. -/
def solutionSet : SolverResult → List Int
  | .model assignment => assignment
  | .unsat => []
  | .unknown => []

/-- The digit loop of `get_cell_solution`, with early return on the first
digit whose variable id is in the solution set. -/
def get_cell_solution_loop (sudoku_solution : List Int) (row column : Int) :
    List Int → Int
  | [] => -1
  | digit :: rest =>
    if get_cell_value row column digit ∈ sudoku_solution then digit
    else get_cell_solution_loop sudoku_solution row column rest

/-- `get_cell_solution(sudoku_solution, row, column)`: the first digit in
`1..9` whose variable id is a member of the solution, else `-1`. -/
def get_cell_solution (sudoku_solution : List Int) (row column : Int) : Int :=
  get_cell_solution_loop sudoku_solution row column (pyRange 1 (DIGITS + 1))

/-- One iteration of the decode loop of `solve_sudoku`:
`sudoku_grid[row - 1][column - 1] = get_cell_solution(sudoku_solution, row, column)`. -/
def write_cell_solution (sudoku_solution : List Int) (g : List (List Int))
    (row column : Int) : Except String (List (List Int)) := do
  let r ← pyGet g (row - 1).toNat
  let r2 ← pySet r (column - 1).toNat (get_cell_solution sudoku_solution row column)
  pySet g (row - 1).toNat r2

/-- `solve_sudoku(sudoku_grid, sudoku_clauses)`.  The Python function mutates
both of its arguments: `sudoku_clauses.extend(single_clauses)` appends the
instance's unit clauses to the caller's clause list, and the decode loop
overwrites every cell of `sudoku_grid`.  The mutation is modelled by explicit
state passing: the result carries the final grid (which the function returns)
and the final value of the clause list.  The external `pycosat.solve` is the
`solver` parameter. -/
def solve_sudoku (solver : List (List Int) → SolverResult)
    (sudoku_grid : List (List Int)) (sudoku_clauses : List (List Int)) :
    Except String (List (List Int) × List (List Int)) := do
  let single_clauses ← get_single_clauses sudoku_grid
  let sudoku_clauses := sudoku_clauses ++ single_clauses
  let sudoku_solution := solutionSet (solver sudoku_clauses)
  let sudoku_grid ← (pyRange 1 (DIGITS + 1)).foldlM (fun g row =>
    (pyRange 1 (DIGITS + 1)).foldlM (fun g column =>
      write_cell_solution sudoku_solution g row column) g) sudoku_grid
  pure (sudoku_grid, sudoku_clauses)

/-- The effect of the decode loop of `solve_sudoku` on one row (proof-side
helper): write each column's decoded digit into the row. -/
def decode_row (sudoku_solution : List Int) (row : Int) (r : List Int) : List Int :=
  (pyRange 1 (DIGITS + 1)).foldl (fun r column =>
    r.set (column - 1).toNat (get_cell_solution sudoku_solution row column)) r

/-- Specification-side decoded grid: cell `(i, j)` (0-based) holds
`get_cell_solution` of the 1-based coordinates. -/

def decoded_grid (sudoku_solution : List Int) : List (List Int) :=
  (List.range 9).map (fun (i : Nat) =>
    (List.range 9).map (fun (j : Nat) =>
      get_cell_solution sudoku_solution ((i : Int) + 1) ((j : Int) + 1)))

/-- Specification-side assignment clauses: one unit clause per nonzero cell
of the grid, in row-major order, and nothing else (entries read with a
default of 0, which the shape hypotheses make exhaustive). -/
def single_clauses_spec (sudoku_grid : List (List Int)) : List (List Int) :=
  (allCells.filter (fun rc =>
    ((sudoku_grid.getD (rc.1 - 1).toNat []).getD (rc.2 - 1).toNat 0) ≠ 0)).map
    (fun rc => [get_cell_value rc.1 rc.2
      ((sudoku_grid.getD (rc.1 - 1).toNat []).getD (rc.2 - 1).toNat 0)])

/-- A well-shaped 9×9 grid. -/
def grid9x9 (g : List (List Int)) : Prop :=
  g.length = 9 ∧ ∀ r ∈ g, r.length = 9

instance (g : List (List Int)) : Decidable (grid9x9 g) := by
  unfold grid9x9; infer_instance

/-- A 9×9 grid whose only clue is a 5 in the top-left cell. -/
def demo_clue_grid : List (List Int) :=
  [[5, 0, 0, 0, 0, 0, 0, 0, 0],
   [0, 0, 0, 0, 0, 0, 0, 0, 0],
   [0, 0, 0, 0, 0, 0, 0, 0, 0],
   [0, 0, 0, 0, 0, 0, 0, 0, 0],
   [0, 0, 0, 0, 0, 0, 0, 0, 0],
   [0, 0, 0, 0, 0, 0, 0, 0, 0],
   [0, 0, 0, 0, 0, 0, 0, 0, 0],
   [0, 0, 0, 0, 0, 0, 0, 0, 0],
   [0, 0, 0, 0, 0, 0, 0, 0, 0]]

/-- A contradictory grid: two clue digits 5 in the same row. -/
def dup_row_grid : List (List Int) :=
  [[5, 5, 0, 0, 0, 0, 0, 0, 0],
   [0, 0, 0, 0, 0, 0, 0, 0, 0],
   [0, 0, 0, 0, 0, 0, 0, 0, 0],
   [0, 0, 0, 0, 0, 0, 0, 0, 0],
   [0, 0, 0, 0, 0, 0, 0, 0, 0],
   [0, 0, 0, 0, 0, 0, 0, 0, 0],
   [0, 0, 0, 0, 0, 0, 0, 0, 0],
   [0, 0, 0, 0, 0, 0, 0, 0, 0],
   [0, 0, 0, 0, 0, 0, 0, 0, 0]]

/-- A 9×9 grid with an entry (17) outside `[0, 9]`. -/
def invalid_digit_grid : List (List Int) :=
  [[17, 0, 0, 0, 0, 0, 0, 0, 0],
   [0, 0, 0, 0, 0, 0, 0, 0, 0],
   [0, 0, 0, 0, 0, 0, 0, 0, 0],
   [0, 0, 0, 0, 0, 0, 0, 0, 0],
   [0, 0, 0, 0, 0, 0, 0, 0, 0],
   [0, 0, 0, 0, 0, 0, 0, 0, 0],
   [0, 0, 0, 0, 0, 0, 0, 0, 0],
   [0, 0, 0, 0, 0, 0, 0, 0, 0],
   [0, 0, 0, 0, 0, 0, 0, 0, 0]]

/-- The all-unknown grid. -/
def zero_grid : List (List Int) :=
  List.replicate 9 (List.replicate 9 0)

/-! ## Theorems -/

theorem length_pyRange (a b : Int) : (pyRange a b).length = (b - a).toNat := by
  rw [pyRange, List.length_map, List.length_range]

theorem mem_pyRange {a b x : Int} : x ∈ pyRange a b ↔ a ≤ x ∧ x < b := by
  simp only [pyRange, List.mem_map, List.mem_range]
  constructor
  · rintro ⟨k, hk, rfl⟩
    omega
  · intro h
    exact ⟨(x - a).toNat, by omega, by omega⟩

theorem nodup_pyRange (a b : Int) : (pyRange a b).Nodup := by
  rw [pyRange]
  refine List.Nodup.map ?_ (List.nodup_range _)
  intro x y hxy
  dsimp only at hxy
  omega

theorem length_pair_digit_clauses (a b : Int × Int) :
    (pair_digit_clauses a b).length = 9 := by
  simp [pair_digit_clauses, length_pyRange, DIGITS]

theorem flatMap_congr_mem {α β : Type} {l : List α} {f g : α → List β}
    (h : ∀ a ∈ l, f a = g a) : l.flatMap f = l.flatMap g := by
  induction l with
  | nil => rfl
  | cons x xs ih =>
    simp only [List.flatMap_cons]
    rw [h x (by simp), ih (fun a ha => h a (List.mem_cons_of_mem _ ha))]

theorem pairwise_fst_lt_enumFrom {α : Type} :
    ∀ (n : Nat) (l : List α), (l.enumFrom n).Pairwise (fun p q => p.1 < q.1) := by
  intro n l
  induction l generalizing n with
  | nil => exact List.Pairwise.nil
  | cons x xs ih =>
    rw [List.enumFrom_cons, List.pairwise_cons]
    refine ⟨?_, ih (n + 1)⟩
    intro q hq
    have : n + 1 ≤ q.1 := by
      clear ih
      induction xs generalizing n with
      | nil => simp at hq
      | cons y ys ih2 =>
        rw [List.enumFrom_cons, List.mem_cons] at hq
        rcases hq with rfl | hq
        · exact Nat.le_refl _
        · exact Nat.le_of_succ_le (ih2 (n + 1) hq)
    omega

theorem subset_clause_core_cons (p : Nat × (Int × Int))
    (s : List (Nat × (Int × Int))) (hp : ∀ q ∈ s, p.1 < q.1) :
    subset_clause_core (p :: s) =
      s.flatMap (fun q => pair_digit_clauses p.2 q.2) ++ subset_clause_core s := by
  simp only [subset_clause_core]
  rw [List.flatMap_cons]
  congr 1
  · rw [List.flatMap_cons, if_neg (Nat.lt_irrefl p.1), List.nil_append]
    exact flatMap_congr_mem (fun q hq => if_pos (hp q hq))
  · refine flatMap_congr_mem (fun x hx => ?_)
    rw [List.flatMap_cons, if_neg (by have := hp x hx; omega), List.nil_append]

theorem subset_clause_core_length :
    ∀ (s : List (Nat × (Int × Int))), s.Pairwise (fun p q => p.1 < q.1) →
      (subset_clause_core s).length = 9 * Nat.choose s.length 2 := by
  intro s hs
  induction s with
  | nil => rfl
  | cons p s ih =>
    rw [List.pairwise_cons] at hs
    rw [subset_clause_core_cons p s hs.1, List.length_append, List.length_flatMap,
      ih hs.2]
    have hmap : s.map (List.length ∘ fun q => pair_digit_clauses p.2 q.2) =
        s.map (fun _ => 9) := by
      refine List.map_congr_left (fun q _ => ?_)
      simp [length_pair_digit_clauses]
    rw [hmap, List.map_const', List.sum_replicate, smul_eq_mul]
    have hch : (p :: s).length.choose 2 = s.length.choose 1 + s.length.choose 2 := by
      rw [List.length_cons]
      exact Nat.choose_succ_succ _ _
    rw [hch, Nat.choose_one_right]
    ring

theorem get_unique_subset_clause_eq_core (l : List (Int × Int)) :
    get_unique_subset_clause l = subset_clause_core l.enum := rfl

theorem get_unique_subset_clause_length (l : List (Int × Int)) :
    (get_unique_subset_clause l).length = 9 * Nat.choose l.length 2 := by
  rw [get_unique_subset_clause_eq_core, List.enum_eq_enumFrom,
    subset_clause_core_length _ (pairwise_fst_lt_enumFrom 0 l), List.enumFrom_length]

theorem get_base_clauses_length : get_base_clauses.length = 81 := by
  rw [get_base_clauses, List.length_flatMap]
  simp only [Function.comp_def, List.length_map, length_pyRange, DIGITS]
  decide

set_option maxRecDepth 8000 in
theorem get_unique_digit_clauses_length : get_unique_digit_clauses.length = 2916 := by
  rw [get_unique_digit_clauses]
  simp only [List.length_flatMap, Function.comp_def, List.length_map, length_pyRange, DIGITS]
  decide

theorem get_rows_digits_unique_clauses_length :
    get_rows_digits_unique_clauses.length = 2916 := by
  rw [get_rows_digits_unique_clauses, List.length_flatMap]
  simp only [Function.comp_def, get_unique_subset_clause_length, List.length_map,
    length_pyRange, DIGITS]
  decide

theorem get_column_digits_unique_clause_length :
    get_column_digits_unique_clause.length = 2916 := by
  rw [get_column_digits_unique_clause, List.length_flatMap]
  simp only [Function.comp_def, get_unique_subset_clause_length, List.length_map,
    length_pyRange, DIGITS]
  decide

set_option maxRecDepth 4000 in
theorem get_3x3_sub_grid_clauses_length : get_3x3_sub_grid_clauses.length = 2916 := by
  rw [get_3x3_sub_grid_clauses, List.length_flatMap]
  simp only [Function.comp_def, get_unique_subset_clause_length, List.length_map]
  decide

/-- C2: the structural clause list has exactly 81 base clauses, 2916 per-cell
uniqueness clauses, 2916 row-uniqueness clauses, 2916 column-uniqueness
clauses and 2916 box-uniqueness clauses — 11745 clauses in total.  The five
generators take no puzzle argument, so the counts are puzzle-independent. -/
theorem get_sudoku_clauses_counts :
    get_base_clauses.length = 81 ∧
    get_unique_digit_clauses.length = 2916 ∧
    get_rows_digits_unique_clauses.length = 2916 ∧
    get_column_digits_unique_clause.length = 2916 ∧
    get_3x3_sub_grid_clauses.length = 2916 ∧
    get_sudoku_clauses.length = 11745 := by
  refine ⟨get_base_clauses_length, get_unique_digit_clauses_length,
    get_rows_digits_unique_clauses_length, get_column_digits_unique_clause_length,
    get_3x3_sub_grid_clauses_length, ?_⟩
  rw [get_sudoku_clauses]
  simp only [List.length_append, get_base_clauses_length, get_unique_digit_clauses_length,
    get_rows_digits_unique_clauses_length, get_column_digits_unique_clause_length,
    get_3x3_sub_grid_clauses_length]

/-- C4: the nine box subsets generated by `get_3x3_sub_grid_clauses` are
pairwise disjoint 9-cell sets whose union is exactly the 81 cells. -/
theorem sub_grid_partition :
    sub_grid_subsets.length = 9 ∧
    (∀ s ∈ sub_grid_subsets, s.length = 9 ∧ s.Nodup) ∧
    sub_grid_subsets.Pairwise (fun s t => ∀ x ∈ s, x ∉ t) ∧
    (∀ x ∈ sub_grid_subsets.flatten, x ∈ allCells) ∧
    (∀ x ∈ allCells, x ∈ sub_grid_subsets.flatten) := by
  decide

theorem get_cell_value_inj {r1 c1 d1 r2 c2 d2 : Int}
    (h1 : 1 ≤ r1) (h2 : r1 ≤ 9) (h3 : 1 ≤ c1) (h4 : c1 ≤ 9) (h5 : 1 ≤ d1) (h6 : d1 ≤ 9)
    (h7 : 1 ≤ r2) (h8 : r2 ≤ 9) (h9 : 1 ≤ c2) (h10 : c2 ≤ 9) (h11 : 1 ≤ d2) (h12 : d2 ≤ 9)
    (heq : get_cell_value r1 c1 d1 = get_cell_value r2 c2 d2) :
    r1 = r2 ∧ c1 = c2 ∧ d1 = d2 := by
  simp only [get_cell_value, NUM_CELLS, DIGITS] at heq
  omega

/-- C1: `get_cell_value` is a total bijection from the triples with all three
components in `[1, 9]` onto the variable ids `{1, ..., 729}`: it lands in
range, it is injective on such triples, and every id in range is hit. -/
theorem get_cell_value_bijection :
    (∀ row column digit : Int, 1 ≤ row → row ≤ 9 → 1 ≤ column → column ≤ 9 →
      1 ≤ digit → digit ≤ 9 →
      1 ≤ get_cell_value row column digit ∧ get_cell_value row column digit ≤ 729) ∧
    (∀ r1 c1 d1 r2 c2 d2 : Int, 1 ≤ r1 → r1 ≤ 9 → 1 ≤ c1 → c1 ≤ 9 →
      1 ≤ d1 → d1 ≤ 9 → 1 ≤ r2 → r2 ≤ 9 → 1 ≤ c2 → c2 ≤ 9 → 1 ≤ d2 → d2 ≤ 9 →
      get_cell_value r1 c1 d1 = get_cell_value r2 c2 d2 →
      r1 = r2 ∧ c1 = c2 ∧ d1 = d2) ∧
    (∀ n : Int, 1 ≤ n → n ≤ 729 → ∃ row column digit : Int,
      1 ≤ row ∧ row ≤ 9 ∧ 1 ≤ column ∧ column ≤ 9 ∧ 1 ≤ digit ∧ digit ≤ 9 ∧
      get_cell_value row column digit = n) := by
  refine ⟨?_, ?_, ?_⟩
  · intro row column digit h1 h2 h3 h4 h5 h6
    simp only [get_cell_value, NUM_CELLS, DIGITS]
    omega
  · intro r1 c1 d1 r2 c2 d2 h1 h2 h3 h4 h5 h6 h7 h8 h9 h10 h11 h12 heq
    exact get_cell_value_inj h1 h2 h3 h4 h5 h6 h7 h8 h9 h10 h11 h12 heq
  · intro n h1 h2
    refine ⟨(n - 1) / 81 + 1, ((n - 1) % 81) / 9 + 1, (n - 1) % 9 + 1,
      ?_, ?_, ?_, ?_, ?_, ?_, ?_⟩ <;>
      first
      | (simp only [get_cell_value, NUM_CELLS, DIGITS]; omega)
      | omega

/-- Witness for C1 at a concrete triple. -/
theorem get_cell_value_bijection_witness :
    1 ≤ get_cell_value 2 3 4 ∧ get_cell_value 2 3 4 ≤ 729 :=
  get_cell_value_bijection.1 2 3 4 (by decide) (by decide) (by decide)
    (by decide) (by decide) (by decide)

theorem count_eq_one_of_nodup_mem {α : Type} [BEq α] [LawfulBEq α] {a : α}
    {l : List α} (hn : l.Nodup) (h : a ∈ l) : l.count a = 1 := by
  induction l with
  | nil => simp at h
  | cons b l ih =>
    rw [List.nodup_cons] at hn
    rw [List.count_cons]
    rcases List.mem_cons.mp h with rfl | hmem
    · rw [List.count_eq_zero.mpr hn.1]
      simp
    · rw [ih hn.2 hmem]
      have hne : b ≠ a := by rintro rfl; exact hn.1 hmem
      simp [hne]

theorem pair_clause_eq {p2 q2 A B : Int × Int} {dp d : Int}
    (hp : cell_in_range p2) (hq : cell_in_range q2)
    (hA : cell_in_range A) (hB : cell_in_range B)
    (hdp1 : 1 ≤ dp) (hdp2 : dp ≤ 9) (hd1 : 1 ≤ d) (hd2 : d ≤ 9) :
    [-get_cell_value p2.1 p2.2 dp, -get_cell_value q2.1 q2.2 dp]
        = [-get_cell_value A.1 A.2 d, -get_cell_value B.1 B.2 d]
      ↔ p2 = A ∧ q2 = B ∧ dp = d := by
  unfold cell_in_range at hp hq hA hB
  constructor
  · intro h
    simp only [List.cons.injEq, and_true, neg_inj] at h
    obtain ⟨h1, h2⟩ := h
    obtain ⟨e1, e2, e3⟩ := get_cell_value_inj hp.1 hp.2.1 hp.2.2.1 hp.2.2.2
      hdp1 hdp2 hA.1 hA.2.1 hA.2.2.1 hA.2.2.2 hd1 hd2 h1
    obtain ⟨f1, f2, _⟩ := get_cell_value_inj hq.1 hq.2.1 hq.2.2.1 hq.2.2.2
      hdp1 hdp2 hB.1 hB.2.1 hB.2.2.1 hB.2.2.2 hd1 hd2 h2
    exact ⟨Prod.ext e1 e2, Prod.ext f1 f2, e3⟩
  · rintro ⟨rfl, rfl, rfl⟩
    rfl

theorem count_pair_digit_clauses {A B p2 q2 : Int × Int} {d : Int}
    (hA : cell_in_range A) (hB : cell_in_range B)
    (hp : cell_in_range p2) (hq : cell_in_range q2)
    (hd1 : 1 ≤ d) (hd2 : d ≤ 9) :
    (pair_digit_clauses p2 q2).count
        [-get_cell_value A.1 A.2 d, -get_cell_value B.1 B.2 d]
      = if p2 = A ∧ q2 = B then 1 else 0 := by
  simp only [pair_digit_clauses]
  rw [List.count_eq_countP, List.countP_map]
  by_cases hcase : p2 = A ∧ q2 = B
  · obtain ⟨rfl, rfl⟩ := hcase
    rw [if_pos ⟨rfl, rfl⟩]
    have hcong : ∀ x ∈ pyRange 1 (DIGITS + 1),
        (((· == [-get_cell_value p2.1 p2.2 d, -get_cell_value q2.1 q2.2 d]) ∘
          fun digit =>
            [-get_cell_value p2.1 p2.2 digit, -get_cell_value q2.1 q2.2 digit]) x)
          ↔ ((x == d) = true) := by
      intro x hx
      have hxb := mem_pyRange.mp hx
      have hx2 : x ≤ 9 := by
        have := hxb.2
        simp only [DIGITS] at this
        omega
      simp only [Function.comp_apply, beq_iff_eq]
      rw [pair_clause_eq hp hq hp hq hxb.1 hx2 hd1 hd2]
      constructor
      · intro h
        exact h.2.2
      · intro h
        exact ⟨rfl, rfl, h⟩
    rw [List.countP_congr hcong, ← List.count_eq_countP]
    exact count_eq_one_of_nodup_mem (nodup_pyRange _ _)
      (mem_pyRange.mpr ⟨hd1, by simp only [DIGITS]; omega⟩)
  · rw [if_neg hcase]
    rw [List.countP_eq_zero]
    intro dp hdp
    have hdpb := mem_pyRange.mp hdp
    have hdp2 : dp ≤ 9 := by
      have := hdpb.2
      simp only [DIGITS] at this
      omega
    simp only [Function.comp_apply, beq_iff_eq]
    intro hbeq
    have := (pair_clause_eq hp hq hA hB hdpb.1 hdp2 hd1 hd2).mp hbeq
    exact hcase ⟨this.1, this.2.1⟩

theorem count_flatMap_pair {p2 A B : Int × Int} {d : Int}
    (hA : cell_in_range A) (hB : cell_in_range B) (hp : cell_in_range p2)
    (hd1 : 1 ≤ d) (hd2 : d ≤ 9) :
    ∀ (s : List (Nat × (Int × Int))), (∀ q ∈ s, cell_in_range q.2) →
      (s.flatMap (fun q => pair_digit_clauses p2 q.2)).count
          [-get_cell_value A.1 A.2 d, -get_cell_value B.1 B.2 d]
        = if p2 = A then (s.map Prod.snd).count B else 0 := by
  intro s
  induction s with
  | nil =>
    intro _
    simp
  | cons q s ih =>
    intro hs
    rw [List.flatMap_cons, List.count_append,
      ih (fun x hx => hs x (List.mem_cons_of_mem _ hx)),
      count_pair_digit_clauses hA hB hp (hs q (List.mem_cons_self _ _)) hd1 hd2,
      List.map_cons, List.count_cons]
    by_cases h1 : p2 = A
    · by_cases h2 : q.2 = B
      · rw [if_pos (show p2 = A ∧ q.2 = B from ⟨h1, h2⟩), if_pos h1, if_pos h1,
          if_pos (show (q.2 == B) = true by simp [h2])]
        omega
      · rw [if_neg (show ¬(p2 = A ∧ q.2 = B) from fun h => h2 h.2), if_pos h1, if_pos h1,
          if_neg (show ¬((q.2 == B) = true) by simp [h2])]
        omega
    · rw [if_neg (show ¬(p2 = A ∧ q.2 = B) from fun h => h1 h.1), if_neg h1, if_neg h1]

theorem subset_clause_core_count_zero {A B : Int × Int} {d : Int}
    (hA : cell_in_range A) (hB : cell_in_range B) (hd1 : 1 ≤ d) (hd2 : d ≤ 9)
    (s : List (Nat × (Int × Int))) (hs : ∀ q ∈ s, cell_in_range q.2)
    (hnot : A ∉ s.map Prod.snd ∨ B ∉ s.map Prod.snd) :
    (subset_clause_core s).count
      [-get_cell_value A.1 A.2 d, -get_cell_value B.1 B.2 d] = 0 := by
  rw [List.count_eq_zero]
  intro hmem
  simp only [subset_clause_core, List.mem_flatMap] at hmem
  obtain ⟨p, hpmem, q, hqmem, hin⟩ := hmem
  by_cases hlt : p.1 < q.1
  · rw [if_pos hlt] at hin
    simp only [pair_digit_clauses, List.mem_map] at hin
    obtain ⟨dp, hdp, heq⟩ := hin
    have hdpb := mem_pyRange.mp hdp
    have hdp2 : dp ≤ 9 := by
      have := hdpb.2
      simp only [DIGITS] at this
      omega
    have hcomp := (pair_clause_eq (hs p hpmem) (hs q hqmem) hA hB
      hdpb.1 hdp2 hd1 hd2).mp heq
    rcases hnot with h | h
    · refine h ?_
      rw [← hcomp.1]
      exact List.mem_map_of_mem Prod.snd hpmem
    · refine h ?_
      rw [← hcomp.2.1]
      exact List.mem_map_of_mem Prod.snd hqmem
  · rw [if_neg hlt] at hin
    simp at hin

theorem subset_clause_core_count {A B : Int × Int} {d : Int}
    (hA : cell_in_range A) (hB : cell_in_range B) (hAB : A ≠ B)
    (hd1 : 1 ≤ d) (hd2 : d ≤ 9) :
    ∀ (s : List (Nat × (Int × Int))),
      s.Pairwise (fun p q => p.1 < q.1) →
      (s.map Prod.snd).Nodup →
      (∀ q ∈ s, cell_in_range q.2) →
      A ∈ s.map Prod.snd → B ∈ s.map Prod.snd →
      (subset_clause_core s).count
          [-get_cell_value A.1 A.2 d, -get_cell_value B.1 B.2 d] +
        (subset_clause_core s).count
          [-get_cell_value B.1 B.2 d, -get_cell_value A.1 A.2 d] = 1 := by
  intro s
  induction s with
  | nil =>
    intro _ _ _ hAmem _
    simp at hAmem
  | cons p s ih =>
    intro hpw hnodup hrange hAmem hBmem
    rw [List.pairwise_cons] at hpw
    rw [List.map_cons] at hnodup hAmem hBmem
    rw [List.nodup_cons] at hnodup
    have hranges : ∀ q ∈ s, cell_in_range q.2 :=
      fun q hq => hrange q (List.mem_cons_of_mem _ hq)
    have hprange : cell_in_range p.2 := hrange p (List.mem_cons_self _ _)
    rw [subset_clause_core_cons p s hpw.1, List.count_append, List.count_append,
      count_flatMap_pair hA hB hprange hd1 hd2 s hranges,
      count_flatMap_pair hB hA hprange hd1 hd2 s hranges]
    by_cases hpA : p.2 = A
    · have hnotA : A ∉ s.map Prod.snd := by
        rw [← hpA]
        exact hnodup.1
      have hBtail : B ∈ s.map Prod.snd := by
        rcases List.mem_cons.mp hBmem with h | h
        · exact absurd (h.trans hpA).symm hAB
        · exact h
      rw [if_pos hpA, if_neg (show ¬(p.2 = B) from fun h => hAB (hpA.symm.trans h))]
      rw [subset_clause_core_count_zero hA hB hd1 hd2 s hranges (Or.inl hnotA),
        subset_clause_core_count_zero hB hA hd1 hd2 s hranges (Or.inr hnotA),
        count_eq_one_of_nodup_mem hnodup.2 hBtail]
    · by_cases hpB : p.2 = B
      · have hnotB : B ∉ s.map Prod.snd := by
          rw [← hpB]
          exact hnodup.1
        have hAtail : A ∈ s.map Prod.snd := by
          rcases List.mem_cons.mp hAmem with h | h
          · exact absurd (h.trans hpB) hAB
          · exact h
        rw [if_neg hpA, if_pos hpB,
          subset_clause_core_count_zero hA hB hd1 hd2 s hranges (Or.inr hnotB),
          subset_clause_core_count_zero hB hA hd1 hd2 s hranges (Or.inl hnotB),
          count_eq_one_of_nodup_mem hnodup.2 hAtail]
      · have hAtail : A ∈ s.map Prod.snd := by
          rcases List.mem_cons.mp hAmem with h | h
          · exact absurd h.symm hpA
          · exact h
        have hBtail : B ∈ s.map Prod.snd := by
          rcases List.mem_cons.mp hBmem with h | h
          · exact absurd h.symm hpB
          · exact h
        rw [if_neg hpA, if_neg hpB]
        have := ih hpw.2 hnodup.2 hranges hAtail hBtail
        omega

/-- C3: on a list of 9 distinct in-range cells, `get_unique_subset_clause`
produces exactly 324 clauses, and for every unordered pair of distinct cells
and every digit in `1..9` exactly one clause holding the two negated
literals of that pair and digit. -/
theorem get_unique_subset_clause_pairs (l : List (Int × Int))
    (hlen : l.length = 9) (hnodup : l.Nodup)
    (hrange : ∀ p ∈ l, cell_in_range p) :
    (get_unique_subset_clause l).length = 324 ∧
    ∀ A ∈ l, ∀ B ∈ l, A ≠ B → ∀ d : Int, 1 ≤ d → d ≤ 9 →
      (get_unique_subset_clause l).count
          [-get_cell_value A.1 A.2 d, -get_cell_value B.1 B.2 d] +
        (get_unique_subset_clause l).count
          [-get_cell_value B.1 B.2 d, -get_cell_value A.1 A.2 d] = 1 := by
  constructor
  · rw [get_unique_subset_clause_length, hlen]
    decide
  · intro A hA B hB hAB d hd1 hd2
    rw [get_unique_subset_clause_eq_core, List.enum_eq_enumFrom]
    have hsnd : (l.enumFrom 0).map Prod.snd = l := List.enumFrom_map_snd 0 l
    refine subset_clause_core_count (hrange A hA) (hrange B hB) hAB hd1 hd2 _
      (pairwise_fst_lt_enumFrom 0 l) ?_ ?_ ?_ ?_
    · rw [hsnd]
      exact hnodup
    · intro q hq
      refine hrange q.2 ?_
      rw [← hsnd]
      exact List.mem_map_of_mem Prod.snd hq
    · rw [hsnd]
      exact hA
    · rw [hsnd]
      exact hB

set_option maxRecDepth 8000 in
/-- Witness for C3: the first row's nine cells, the pair (1,1)-(1,2), digit 1. -/
theorem get_unique_subset_clause_pairs_witness :
    (get_unique_subset_clause
      [((1 : Int), (1 : Int)), (1, 2), (1, 3), (1, 4), (1, 5), (1, 6), (1, 7),
        (1, 8), (1, 9)]).length = 324 ∧
    (get_unique_subset_clause
        [((1 : Int), (1 : Int)), (1, 2), (1, 3), (1, 4), (1, 5), (1, 6), (1, 7),
          (1, 8), (1, 9)]).count
        [-get_cell_value 1 1 1, -get_cell_value 1 2 1] +
      (get_unique_subset_clause
        [((1 : Int), (1 : Int)), (1, 2), (1, 3), (1, 4), (1, 5), (1, 6), (1, 7),
          (1, 8), (1, 9)]).count
        [-get_cell_value 1 2 1, -get_cell_value 1 1 1] = 1 :=
  ⟨(get_unique_subset_clause_pairs _ (by decide) (by decide) (by decide)).1,
    (get_unique_subset_clause_pairs _ (by decide) (by decide) (by decide)).2
      (1, 1) (by decide) (1, 2) (by decide) (by decide) 1 (by decide) (by decide)⟩

theorem pairwise_lt_pyRange (a b : Int) : (pyRange a b).Pairwise (· < ·) := by
  rw [pyRange, List.pairwise_map]
  exact (List.pairwise_lt_range _).imp (fun h => by omega)

theorem get_cell_solution_loop_none {s : List Int} {row column : Int} :
    ∀ ds : List Int, (∀ d ∈ ds, get_cell_value row column d ∉ s) →
      get_cell_solution_loop s row column ds = -1 := by
  intro ds
  induction ds with
  | nil => intro _; rfl
  | cons d ds ih =>
    intro h
    show (if get_cell_value row column d ∈ s then d
      else get_cell_solution_loop s row column ds) = -1
    rw [if_neg (h d (List.mem_cons_self _ _))]
    exact ih (fun e he => h e (List.mem_cons_of_mem _ he))

theorem get_cell_solution_loop_first {s : List Int} {row column : Int} :
    ∀ ds : List Int, ds.Pairwise (· < ·) →
      ∀ d, d ∈ ds → get_cell_value row column d ∈ s →
      (∀ e ∈ ds, e < d → get_cell_value row column e ∉ s) →
      get_cell_solution_loop s row column ds = d := by
  intro ds
  induction ds with
  | nil =>
    intro _ d hd
    simp at hd
  | cons e ds ih =>
    intro hpw d hd hmem hmin
    rw [List.pairwise_cons] at hpw
    show (if get_cell_value row column e ∈ s then e
      else get_cell_solution_loop s row column ds) = d
    rcases List.mem_cons.mp hd with rfl | hd'
    · rw [if_pos hmem]
    · have helt : e < d := hpw.1 d hd'
      rw [if_neg (hmin e (List.mem_cons_self _ _) helt)]
      exact ih hpw.2 d hd' hmem (fun x hx hxd => hmin x (List.mem_cons_of_mem _ hx) hxd)

/-- C7: for every model and every in-range target cell, `get_cell_solution`
returns the first digit in ascending order `1..9` whose (positive) variable id
is a member of the model, and the sentinel `-1` when no digit's id is. -/
theorem get_cell_solution_first_digit (s : List Int) (row column : Int)
    (hr1 : 1 ≤ row) (hr2 : row ≤ 9) (hc1 : 1 ≤ column) (hc2 : column ≤ 9) :
    (∀ d : Int, 1 ≤ d → d ≤ 9 → 0 < get_cell_value row column d) ∧
    (∀ d : Int, 1 ≤ d → d ≤ 9 → get_cell_value row column d ∈ s →
      (∀ e : Int, 1 ≤ e → e < d → get_cell_value row column e ∉ s) →
      get_cell_solution s row column = d) ∧
    ((∀ d : Int, 1 ≤ d → d ≤ 9 → get_cell_value row column d ∉ s) →
      get_cell_solution s row column = -1) := by
  refine ⟨?_, ?_, ?_⟩
  · intro d h1 h2
    simp only [get_cell_value, NUM_CELLS, DIGITS]
    omega
  · intro d h1 h2 hmem hmin
    rw [get_cell_solution]
    refine get_cell_solution_loop_first _ (pairwise_lt_pyRange _ _) d ?_ hmem ?_
    · refine mem_pyRange.mpr ⟨h1, ?_⟩
      simp only [DIGITS]
      omega
    · intro e he hlt
      exact hmin e (mem_pyRange.mp he).1 hlt
  · intro h
    rw [get_cell_solution]
    refine get_cell_solution_loop_none _ ?_
    intro d hd
    have hdb := mem_pyRange.mp hd
    refine h d hdb.1 ?_
    have := hdb.2
    simp only [DIGITS] at this
    omega

/-- Witness for C7: a model making digit 5 true at cell (1,1), and the empty
model yielding the sentinel. -/
theorem get_cell_solution_first_digit_witness :
    get_cell_solution [(5 : Int)] 1 1 = 5 ∧ get_cell_solution [] 1 1 = -1 :=
  ⟨(get_cell_solution_first_digit [5] 1 1 (by decide) (by decide) (by decide)
        (by decide)).2.1 5 (by decide) (by decide) (by decide)
      (fun e he hlt => by
        simp only [get_cell_value, NUM_CELLS, DIGITS, List.mem_singleton]
        omega),
    (get_cell_solution_first_digit [] 1 1 (by decide) (by decide) (by decide)
        (by decide)).2.2 (fun d _ _ => by simp)⟩

theorem except_ok_bind {α β : Type} (a : α) (k : α → Except String β) :
    (Except.ok a >>= k) = k a := rfl

theorem pyGet_ok {α : Type} (l : List α) (i : Nat) (d : α) (h : i < l.length) :
    pyGet l i = .ok (l.getD i d) := by
  have hsome : l.get? i = some (l.getD i d) := by
    rw [List.get?_eq_getElem?, List.getD_eq_getElem?_getD, List.getElem?_eq_getElem h]
    rfl
  simp only [pyGet, hsome]

theorem pySet_ok {α : Type} (l : List α) (i : Nat) (v : α) (h : i < l.length) :
    pySet l i v = .ok (l.set i v) := by
  rw [pySet, if_pos h]

theorem mapM_except_ok {α β : Type} {f : α → Except String β} {g : α → β} :
    ∀ l : List α, (∀ x ∈ l, f x = .ok (g x)) → l.mapM f = .ok (l.map g) := by
  intro l
  induction l with
  | nil => intro _; rfl
  | cons x xs ih =>
    intro h
    rw [List.mapM_cons, h x (List.mem_cons_self _ _),
      ih (fun y hy => h y (List.mem_cons_of_mem _ hy))]
    rfl

theorem flatten_map_ite {α β : Type} (p : α → Prop) [DecidablePred p] (f : α → β) :
    ∀ l : List α,
      (l.map (fun x => if p x then [f x] else [])).flatten
        = (l.filter (fun x => decide (p x))).map f := by
  intro l
  induction l with
  | nil => rfl
  | cons x xs ih =>
    rw [List.map_cons, List.flatten_cons, List.filter_cons]
    by_cases h : p x <;> simp [h, ih]

theorem flatten_flatMap {α β : Type} (l : List α) (f : α → List (List β)) :
    (l.flatMap f).flatten = l.flatMap (fun x => (f x).flatten) := by
  induction l with
  | nil => rfl
  | cons x xs ih => rw [List.flatMap_cons, List.flatten_append, ih, List.flatMap_cons]

/-- The cell value read by `get_single_clauses` at (1-based) coordinates. -/
theorem cell_read_ok (g : List (List Int)) (hg : grid9x9 g) {row column : Int}
    (hrow : row ∈ pyRange 1 (DIGITS + 1)) (hcol : column ∈ pyRange 1 (DIGITS + 1)) :
    (do
      let cell_value ← pyGet (← pyGet g (row - 1).toNat) (column - 1).toNat
      pure (if cell_value ≠ 0 then [[get_cell_value row column cell_value]] else [])
      : Except String (List (List Int)))
      = .ok (if (g.getD (row - 1).toNat []).getD (column - 1).toNat 0 ≠ 0 then
          [[get_cell_value row column
            ((g.getD (row - 1).toNat []).getD (column - 1).toNat 0)]]
        else []) := by
  have hrowb := mem_pyRange.mp hrow
  have hcolb := mem_pyRange.mp hcol
  simp only [DIGITS] at hrowb hcolb
  have hrowlt : (row - 1).toNat < g.length := by
    rw [hg.1]
    omega
  have hrmem : g.getD (row - 1).toNat [] ∈ g := by
    rw [List.getD_eq_getElem?_getD, List.getElem?_eq_getElem hrowlt, Option.getD_some]
    exact List.getElem_mem hrowlt
  have hcollt : (column - 1).toNat < (g.getD (row - 1).toNat []).length := by
    rw [hg.2 _ hrmem]
    omega
  rw [pyGet_ok g (row - 1).toNat [] hrowlt, except_ok_bind,
    pyGet_ok _ (column - 1).toNat 0 hcollt, except_ok_bind]
  rfl

theorem get_single_clauses_ok (g : List (List Int)) (hg : grid9x9 g) :
    get_single_clauses g = .ok (single_clauses_spec g) := by
  have houter : (pyRange 1 (DIGITS + 1)).mapM (fun row =>
      (pyRange 1 (DIGITS + 1)).mapM (fun column => do
        let cell_value ← pyGet (← pyGet g (row - 1).toNat) (column - 1).toNat
        pure (if cell_value ≠ 0 then [[get_cell_value row column cell_value]] else [])))
      = .ok ((pyRange 1 (DIGITS + 1)).map (fun row =>
          (pyRange 1 (DIGITS + 1)).map (fun column =>
            if (g.getD (row - 1).toNat []).getD (column - 1).toNat 0 ≠ 0 then
              [[get_cell_value row column
                ((g.getD (row - 1).toNat []).getD (column - 1).toNat 0)]]
            else []))) := by
    refine mapM_except_ok _ (fun row hrow => ?_)
    refine mapM_except_ok _ (fun column hcol => ?_)
    exact cell_read_ok g hg hrow hcol
  rw [get_single_clauses, houter, except_ok_bind]
  congr 1
  rw [← List.flatMap_def, flatten_flatMap]
  simp only [flatten_map_ite]
  rw [single_clauses_spec, allCells]
  rw [List.filter_flatMap, List.map_flatMap]
  refine flatMap_congr_mem (fun row _ => ?_)
  rw [List.filter_map, List.map_map]
  rfl

theorem list_len9 {α : Type} {l : List α} (h : l.length = 9) :
    ∃ x1 x2 x3 x4 x5 x6 x7 x8 x9, l = [x1, x2, x3, x4, x5, x6, x7, x8, x9] := by
  obtain ⟨x1, l1, rfl⟩ := List.exists_of_length_succ l h
  have h1 : l1.length = 8 := by rw [List.length_cons] at h; omega
  obtain ⟨x2, l2, rfl⟩ := List.exists_of_length_succ l1 h1
  have h2 : l2.length = 7 := by rw [List.length_cons] at h1; omega
  obtain ⟨x3, l3, rfl⟩ := List.exists_of_length_succ l2 h2
  have h3 : l3.length = 6 := by rw [List.length_cons] at h2; omega
  obtain ⟨x4, l4, rfl⟩ := List.exists_of_length_succ l3 h3
  have h4 : l4.length = 5 := by rw [List.length_cons] at h3; omega
  obtain ⟨x5, l5, rfl⟩ := List.exists_of_length_succ l4 h4
  have h5 : l5.length = 4 := by rw [List.length_cons] at h4; omega
  obtain ⟨x6, l6, rfl⟩ := List.exists_of_length_succ l5 h5
  have h6 : l6.length = 3 := by rw [List.length_cons] at h5; omega
  obtain ⟨x7, l7, rfl⟩ := List.exists_of_length_succ l6 h6
  have h7 : l7.length = 2 := by rw [List.length_cons] at h6; omega
  obtain ⟨x8, l8, rfl⟩ := List.exists_of_length_succ l7 h7
  have h8 : l8.length = 1 := by rw [List.length_cons] at h7; omega
  obtain ⟨x9, l9, rfl⟩ := List.exists_of_length_succ l8 h8
  have h9 : l9.length = 0 := by rw [List.length_cons] at h8; omega
  rw [List.length_eq_zero] at h9
  subst h9
  exact ⟨x1, x2, x3, x4, x5, x6, x7, x8, x9, rfl⟩

theorem write_cell_solution_ok (sol : List Int) (g : List (List Int))
    (row column : Int) (hi : (row - 1).toNat < g.length)
    (hj : (column - 1).toNat < (g.getD (row - 1).toNat []).length) :
    write_cell_solution sol g row column
      = .ok (g.set (row - 1).toNat
          ((g.getD (row - 1).toNat []).set (column - 1).toNat
            (get_cell_solution sol row column))) := by
  rw [write_cell_solution, pyGet_ok g _ [] hi, except_ok_bind,
    pySet_ok _ _ _ hj, except_ok_bind, pySet_ok _ _ _ hi]

/-- The pure mirror of one decode-loop write. -/
theorem inner_fold_ok (sol : List Int) (row : Int) :
    ∀ (cols : List Int) (g : List (List Int)),
      (row - 1).toNat < g.length →
      (g.getD (row - 1).toNat []).length = 9 →
      (∀ col ∈ cols, (col - 1).toNat < 9) →
      cols.foldlM (fun g column => write_cell_solution sol g row column) g
        = .ok (cols.foldl (fun g column => g.set (row - 1).toNat
            ((g.getD (row - 1).toNat []).set (column - 1).toNat
              (get_cell_solution sol row column))) g) := by
  intro cols
  induction cols with
  | nil =>
    intro g _ _ _
    rfl
  | cons col cols ih =>
    intro g hi hlen hb
    rw [List.foldlM_cons,
      write_cell_solution_ok sol g row col hi (by rw [hlen]; exact hb col (List.mem_cons_self _ _)),
      except_ok_bind, List.foldl_cons]
    exact ih (g.set (row - 1).toNat ((g.getD (row - 1).toNat []).set (col - 1).toNat
        (get_cell_solution sol row col)))
      (by rw [List.length_set]; exact hi)
      (by rw [List.getD_eq_getElem?_getD, List.getElem?_set_self hi, Option.getD_some,
        List.length_set, hlen])
      (fun c hc => hb c (List.mem_cons_of_mem _ hc))

theorem grid9x9_set (g : List (List Int)) (hg : grid9x9 g) (i : Nat)
    (x : List Int) (hx : x.length = 9) : grid9x9 (g.set i x) := by
  refine ⟨by rw [List.length_set]; exact hg.1, ?_⟩
  intro r hr
  rcases List.mem_or_eq_of_mem_set hr with h | h
  · exact hg.2 r h
  · rw [h]
    exact hx

theorem grid9x9_row_len (g : List (List Int)) (hg : grid9x9 g) (i : Nat)
    (hi : i < 9) : (g.getD i []).length = 9 := by
  have hlt : i < g.length := by rw [hg.1]; exact hi
  refine hg.2 _ ?_
  rw [List.getD_eq_getElem?_getD, List.getElem?_eq_getElem hlt, Option.getD_some]
  exact List.getElem_mem hlt

theorem set_getD_self {α : Type} (l : List α) (i : Nat) (d : α) (h : i < l.length) :
    l.set i (l.getD i d) = l := by
  apply List.ext_getElem
  · rw [List.length_set]
  · intro n h1 h2
    rw [List.getElem_set]
    split
    · rename_i heq
      subst heq
      rw [List.getD_eq_getElem?_getD, List.getElem?_eq_getElem h, Option.getD_some]
    · rfl

theorem getD_set_self {α : Type} (l : List α) (i : Nat) (x d : α) (h : i < l.length) :
    (l.set i x).getD i d = x := by
  rw [List.getD_eq_getElem?_getD, List.getElem?_set_self h, Option.getD_some]

/-- Collapsing the grid-level writes of one row into a row-level fold. -/
theorem foldl_set_out (sol : List Int) (row : Int) :
    ∀ (cols : List Int) (g : List (List Int)), (row - 1).toNat < g.length →
      cols.foldl (fun g column => g.set (row - 1).toNat
          ((g.getD (row - 1).toNat []).set (column - 1).toNat
            (get_cell_solution sol row column))) g
        = g.set (row - 1).toNat
            (cols.foldl (fun r column => r.set (column - 1).toNat
              (get_cell_solution sol row column)) (g.getD (row - 1).toNat [])) := by
  intro cols
  induction cols with
  | nil =>
    intro g hi
    exact (set_getD_self g _ [] hi).symm
  | cons col cols ih =>
    intro g hi
    rw [List.foldl_cons, List.foldl_cons, ih _ (by rw [List.length_set]; exact hi),
      getD_set_self g _ _ _ hi, List.set_set]

theorem foldl_set_length (sol : List Int) (row : Int) :
    ∀ (cols : List Int) (r : List Int),
      (cols.foldl (fun r column => r.set (column - 1).toNat
        (get_cell_solution sol row column)) r).length = r.length := by
  intro cols
  induction cols with
  | nil =>
    intro r
    rfl
  | cons c cols ih =>
    intro r
    rw [List.foldl_cons, ih, List.length_set]

theorem decode_row_length (sol : List Int) (row : Int) (r : List Int) :
    (decode_row sol row r).length = r.length :=
  foldl_set_length sol row _ r

/-- The pure mirror of the whole decode loop: each visited row is replaced by
its decoded row. -/
theorem outer_fold_ok (sol : List Int) :
    ∀ (rows : List Int) (g : List (List Int)), grid9x9 g →
      (∀ row ∈ rows, (row - 1).toNat < 9) →
      rows.foldlM (fun g row =>
        (pyRange 1 (DIGITS + 1)).foldlM (fun g column =>
          write_cell_solution sol g row column) g) g
        = .ok (rows.foldl (fun g row => g.set (row - 1).toNat
            (decode_row sol row (g.getD (row - 1).toNat []))) g) := by
  intro rows
  induction rows with
  | nil =>
    intro g _ _
    rfl
  | cons row rows ih =>
    intro g hg hb
    have hrow : (row - 1).toNat < 9 := hb row (List.mem_cons_self _ _)
    have hi : (row - 1).toNat < g.length := by rw [hg.1]; exact hrow
    rw [List.foldlM_cons,
      inner_fold_ok sol row (pyRange 1 (DIGITS + 1)) g hi
        (grid9x9_row_len g hg _ hrow)
        (fun col hcol => by
          have hb2 := mem_pyRange.mp hcol
          simp only [DIGITS] at hb2
          omega),
      except_ok_bind,
      foldl_set_out sol row (pyRange 1 (DIGITS + 1)) g hi, List.foldl_cons]
    exact ih (g.set (row - 1).toNat (decode_row sol row (g.getD (row - 1).toNat [])))
      (grid9x9_set g hg _ _
        (by rw [decode_row_length, grid9x9_row_len g hg _ hrow]))
      (fun r hr => hb r (List.mem_cons_of_mem _ hr))

theorem pyRange_lit : pyRange 1 (DIGITS + 1) = [1, 2, 3, 4, 5, 6, 7, 8, 9] := by
  decide

theorem range9_lit : List.range 9 = [0, 1, 2, 3, 4, 5, 6, 7, 8] := by
  decide

set_option maxRecDepth 8000 in
theorem decode_row_eq (sol : List Int) (row : Int) (r : List Int) (h : r.length = 9) :
    decode_row sol row r
      = (List.range 9).map (fun (j : Nat) =>
          get_cell_solution sol row ((j : Int) + 1)) := by
  obtain ⟨x1, x2, x3, x4, x5, x6, x7, x8, x9, rfl⟩ := list_len9 h
  simp only [decode_row, pyRange_lit, range9_lit, List.foldl_cons, List.foldl_nil,
    List.map_cons, List.map_nil]
  norm_num [List.set]

set_option maxRecDepth 8000 in
theorem solve_write_loop_eq (sol : List Int) (g : List (List Int)) (hg : grid9x9 g) :
    ((pyRange 1 (DIGITS + 1)).foldlM (fun g row =>
      (pyRange 1 (DIGITS + 1)).foldlM (fun g column =>
        write_cell_solution sol g row column) g) g)
      = .ok (decoded_grid sol) := by
  rw [outer_fold_ok sol (pyRange 1 (DIGITS + 1)) g hg
    (fun row hrow => by
      have hb2 := mem_pyRange.mp hrow
      simp only [DIGITS] at hb2
      omega)]
  congr 1
  obtain ⟨h9, hrows⟩ := hg
  obtain ⟨r1, r2, r3, r4, r5, r6, r7, r8, r9, rfl⟩ := list_len9 h9
  have d1 := decode_row_eq sol 1 r1 (hrows r1 (by simp))
  have d2 := decode_row_eq sol 2 r2 (hrows r2 (by simp))
  have d3 := decode_row_eq sol 3 r3 (hrows r3 (by simp))
  have d4 := decode_row_eq sol 4 r4 (hrows r4 (by simp))
  have d5 := decode_row_eq sol 5 r5 (hrows r5 (by simp))
  have d6 := decode_row_eq sol 6 r6 (hrows r6 (by simp))
  have d7 := decode_row_eq sol 7 r7 (hrows r7 (by simp))
  have d8 := decode_row_eq sol 8 r8 (hrows r8 (by simp))
  have d9 := decode_row_eq sol 9 r9 (hrows r9 (by simp))
  simp only [pyRange_lit, List.foldl_cons, List.foldl_nil]
  norm_num [List.set, List.getD, List.get?, decoded_grid, range9_lit, List.map_cons,
    List.map_nil, d1, d2, d3, d4, d5, d6, d7, d8, d9]

theorem solve_sudoku_ok (solver : List (List Int) → SolverResult)
    (g clauses : List (List Int)) (hg : grid9x9 g) :
    solve_sudoku solver g clauses
      = .ok (decoded_grid (solutionSet (solver (clauses ++ single_clauses_spec g))),
          clauses ++ single_clauses_spec g) := by
  have hfold := solve_write_loop_eq
    (solutionSet (solver (clauses ++ single_clauses_spec g))) g hg
  simp only [solve_sudoku, get_single_clauses_ok g hg, except_ok_bind, hfold]
  rfl

theorem decoded_grid_getD (sol : List Int) (i j : Nat) (hi : i < 9) (hj : j < 9) :
    ((decoded_grid sol).getD i []).getD j 0
      = get_cell_solution sol ((i : Int) + 1) ((j : Int) + 1) := by
  simp [decoded_grid, List.getD_eq_getElem?_getD, List.getElem?_map,
    List.getElem?_range, hi, hj, Option.map_some, Option.getD_some]

theorem decoded_grid_nil :
    decoded_grid [] = List.replicate 9 (List.replicate 9 (-1)) := rfl

/-- C8: on a 9×9 grid with entries in `[0, 9]`, `get_single_clauses` emits
exactly one unit clause per nonzero cell (in row-major order) and nothing
else; zero cells contribute no clause.  `single_clauses_spec` is the
specification-side filter/map over the 81 cells. -/
theorem get_single_clauses_unit_clauses (g : List (List Int)) (hg : grid9x9 g)
    (_hentries : ∀ r ∈ g, ∀ v ∈ r, 0 ≤ v ∧ v ≤ 9) :
    get_single_clauses g = .ok (single_clauses_spec g) :=
  get_single_clauses_ok g hg

/-- Witness for C8 at a concrete one-clue grid. -/
theorem get_single_clauses_unit_clauses_witness :
    get_single_clauses demo_clue_grid = .ok (single_clauses_spec demo_clue_grid) :=
  get_single_clauses_unit_clauses demo_clue_grid (by decide) (by decide)

/-- C5 counterexample: on a grid with two identical clue digits in the same
row, when the external solver reports UNSAT, `solve_sudoku` does not surface
a distinct `PuzzleUnsolvable` outcome: it returns normally, silently handing
back the garbage all-(-1) grid. -/
theorem solve_sudoku_unsat_counterexample :
    solve_sudoku (fun _ => SolverResult.unsat) dup_row_grid []
      = .ok (List.replicate 9 (List.replicate 9 (-1)), [[5], [14]]) := by
  rw [solve_sudoku_ok (fun _ => SolverResult.unsat) dup_row_grid [] (by decide)]
  rfl

/-- C5 amended: when the solver reports UNSAT, `solve_sudoku` returns
normally with every one of the 81 cells set to the sentinel `-1` (the decoder
finds no positive literal); no distinct `PuzzleUnsolvable` outcome exists in
the code. -/
theorem solve_sudoku_unsat_sentinel (solver : List (List Int) → SolverResult)
    (g clauses : List (List Int)) (hg : grid9x9 g)
    (hunsat : solver (clauses ++ single_clauses_spec g) = SolverResult.unsat) :
    solve_sudoku solver g clauses
      = .ok (List.replicate 9 (List.replicate 9 (-1)),
          clauses ++ single_clauses_spec g) := by
  rw [solve_sudoku_ok solver g clauses hg, hunsat]
  rfl

/-- Witness for C5 (amended) at the duplicate-clue grid. -/
theorem solve_sudoku_unsat_sentinel_witness :
    solve_sudoku (fun _ => SolverResult.unsat) dup_row_grid []
      = .ok (List.replicate 9 (List.replicate 9 (-1)),
          [] ++ single_clauses_spec dup_row_grid) :=
  solve_sudoku_unsat_sentinel (fun _ => SolverResult.unsat) dup_row_grid []
    (by decide) rfl

/-- C6 counterexample: a 9×9 grid containing 17 (outside `[0, 9]`) is not
rejected: no `InvalidDigit` failure occurs, the bogus unit clause `[17]` is
generated, and `solve_sudoku` returns normally. -/
theorem solve_sudoku_no_validation_counterexample :
    get_single_clauses invalid_digit_grid = .ok [[17]] ∧
    solve_sudoku (fun _ => SolverResult.unsat) invalid_digit_grid []
      = .ok (List.replicate 9 (List.replicate 9 (-1)), [[17]]) := by
  constructor
  · rw [get_single_clauses_ok invalid_digit_grid (by decide)]
    rfl
  · rw [solve_sudoku_ok (fun _ => SolverResult.unsat) invalid_digit_grid [] (by decide)]
    rfl

/-- C6 amended: `solve_sudoku` performs no input validation.  An entry
outside `[0, 9]` is silently encoded as a unit clause and solving proceeds
normally for any solver; a non-9×9 grid surfaces only as an `IndexError`
raised inside assignment-clause generation, not as a typed
`InvalidGridShape` before clause work. -/
theorem solve_sudoku_no_validation (solver : List (List Int) → SolverResult)
    (clauses : List (List Int)) :
    solve_sudoku solver invalid_digit_grid clauses
      = .ok (decoded_grid (solutionSet (solver (clauses ++ [[17]]))),
          clauses ++ [[17]]) ∧
    get_single_clauses [[1]] = .error "IndexError" := by
  constructor
  · have h := solve_sudoku_ok solver invalid_digit_grid clauses (by decide)
    rw [show single_clauses_spec invalid_digit_grid = [[17]] from rfl] at h
    exact h
  · rfl

/-- C9 counterexample: the clause list passed to `solve_sudoku` does not stay
unchanged: `sudoku_clauses.extend(single_clauses)` leaves the instance's unit
clause `[5]` appended to the structural list `[[1]]`. -/
theorem solve_sudoku_clauses_mutated_counterexample :
    solve_sudoku (fun _ => SolverResult.unsat) demo_clue_grid [[1]]
      = .ok (List.replicate 9 (List.replicate 9 (-1)), [[1], [5]]) ∧
    ([[1], [5]] : List (List Int)) ≠ [[1]] := by
  constructor
  · rw [solve_sudoku_ok (fun _ => SolverResult.unsat) demo_clue_grid [[1]] (by decide)]
    rfl
  · decide

/-- C9 amended: `solve_sudoku` extends the clause list passed in with the
instance's assignment clauses in place: after the call the list holds the
structural clauses followed by this instance's unit clauses, so it is not an
unchanged, reusable structural collection. -/
theorem solve_sudoku_clauses_append (solver : List (List Int) → SolverResult)
    (g clauses : List (List Int)) (hg : grid9x9 g) :
    solve_sudoku solver g clauses
      = .ok (decoded_grid (solutionSet (solver (clauses ++ single_clauses_spec g))),
          clauses ++ single_clauses_spec g) :=
  solve_sudoku_ok solver g clauses hg

/-- Witness for C9 (amended). -/
theorem solve_sudoku_clauses_append_witness :
    solve_sudoku (fun _ => SolverResult.unsat) demo_clue_grid [[1]]
      = .ok (decoded_grid (solutionSet ((fun _ => SolverResult.unsat)
            ([[1]] ++ single_clauses_spec demo_clue_grid))),
          [[1]] ++ single_clauses_spec demo_clue_grid) :=
  solve_sudoku_clauses_append (fun _ => SolverResult.unsat) demo_clue_grid [[1]]
    (by decide)

/-- C10: `solve_sudoku` overwrites its input grid in place and returns that
grid: on any 9×9 input, every one of the 81 cells of the returned grid —
clue cells included — holds the value recomputed by `get_cell_solution` from
the solver model; the result does not depend on the original cell values. -/
theorem solve_sudoku_overwrites_grid (solver : List (List Int) → SolverResult)
    (g clauses : List (List Int)) (hg : grid9x9 g) :
    solve_sudoku solver g clauses
      = .ok (decoded_grid (solutionSet (solver (clauses ++ single_clauses_spec g))),
          clauses ++ single_clauses_spec g) ∧
    ∀ i j : Nat, i < 9 → j < 9 →
      ((decoded_grid (solutionSet (solver
          (clauses ++ single_clauses_spec g)))).getD i []).getD j 0
        = get_cell_solution (solutionSet (solver (clauses ++ single_clauses_spec g)))
            ((i : Int) + 1) ((j : Int) + 1) :=
  ⟨solve_sudoku_ok solver g clauses hg,
    fun i j hi hj => decoded_grid_getD _ i j hi hj⟩

/-- Witness for C10 at the all-zero grid and the top-left cell. -/
theorem solve_sudoku_overwrites_grid_witness :
    solve_sudoku (fun _ => SolverResult.unsat) zero_grid []
      = .ok (decoded_grid (solutionSet ((fun _ => SolverResult.unsat)
            ([] ++ single_clauses_spec zero_grid))),
          [] ++ single_clauses_spec zero_grid) ∧
    ((decoded_grid (solutionSet ((fun _ => SolverResult.unsat)
        ([] ++ single_clauses_spec zero_grid)))).getD 0 []).getD 0 0
      = get_cell_solution (solutionSet ((fun _ => SolverResult.unsat)
          ([] ++ single_clauses_spec zero_grid))) 1 1 :=
  ⟨(solve_sudoku_overwrites_grid (fun _ => SolverResult.unsat) zero_grid []
      (by decide)).1,
    (solve_sudoku_overwrites_grid (fun _ => SolverResult.unsat) zero_grid []
      (by decide)).2 0 0 (by decide) (by decide)⟩

end SatSudoku
